import Mathlib

/-!
Verification of the d3Conduit lifecycle adapter (src/src/d3Conduit.js).

The development shallowly embeds the JavaScript source:
* JS option objects become `JsonVal` (a JSON-like tree of numbers, strings
  and string-keyed field lists; JS objects never hold duplicate keys, which
  `wfJson` records).
* lodash `defaultsDeep` and `Object.assign` become the pure functions
  `defaultsDeep` and `objectAssign`; the in-place mutation that
  `defaultsDeep` performs on its first argument is modelled by returning
  the mutated value, and `d3ConduitRun` returns, next to the factory
  result, the state of the caller's options object after the call.
* The React component produced by the factory becomes an explicit state
  machine: `mountInst`, `receivePropsStep` and `unmountStep` follow
  `componentDidMount`, `componentWillReceiveProps` and
  `componentWillUnmount`, emitting a `CallEv` trace that records every
  invocation of the caller's `initFn` / `renderFn` callbacks and every
  DOM / window-listener effect.
* `makeResponsiveSVG` is translated attribute by attribute, with the
  browser-computed style size as an `Option Nat` input (`none` = unset)
  and JS `parseInt` returning `JSNum.nan` on an unset style.
-/

namespace D3C

/-- JSON-like value: the shape of JS option objects.  Object fields are an
association list of string keys; JS objects never carry duplicate keys
(see `WFJson`). -/
inductive JsonVal where
  | num (n : Int)
  | str (s : String)
  | obj (fields : List (String × JsonVal))
deriving Repr

/-- First field with the given key, as JS property lookup. -/
def findField (k : String) : List (String × JsonVal) → Option JsonVal
  | [] => none
  | (k', v) :: rest => if k' = k then some v else findField k rest

/-- Returns `true` when the object field list has a field named `k`. -/
def hasField (k : String) (l : List (String × JsonVal)) : Bool :=
  (findField k l).isSome

/-- Source fields absent from the target, appended by `defaultsDeep`. -/
def extraFields (t s : List (String × JsonVal)) : List (String × JsonVal) :=
  s.filter (fun p => !hasField p.1 t)

mutual

/-- lodash `defaultsDeep target source` (pure rendering of the in-place
mutation): fields already present in the target are kept, recursing when
both sides hold objects; fields only present in the source are appended. -/
def defaultsDeep : JsonVal → JsonVal → JsonVal
  | JsonVal.obj t, JsonVal.obj s =>
      JsonVal.obj (mergeFields t s ++ extraFields t s)
  | t, _ => t

/-- The target's fields after the merge, in their original order. -/
def mergeFields : List (String × JsonVal) → List (String × JsonVal) → List (String × JsonVal)
  | [], _ => []
  | (k, v) :: rest, s =>
      match findField k s with
      | some sv => (k, defaultsDeep v sv) :: mergeFields rest s
      | none => (k, v) :: mergeFields rest s

end

/-- JS property write: replace the first field named `k`, else append. -/
def setField (k : String) (v : JsonVal) : List (String × JsonVal) → List (String × JsonVal)
  | [] => [(k, v)]
  | (k', v') :: rest => if k' = k then (k, v) :: rest else (k', v') :: setField k v rest

/-- JS `Object.assign` on field lists: write every source field into the target. -/
def assignFields (t : List (String × JsonVal)) : List (String × JsonVal) → List (String × JsonVal)
  | [] => t
  | (k, v) :: rest => assignFields (setField k v t) rest

/-- JS `Object.assign target source` (shallow copy of source fields). -/
def objectAssign : JsonVal → JsonVal → JsonVal
  | JsonVal.obj t, JsonVal.obj s => JsonVal.obj (assignFields t s)
  | t, _ => t

/-- Path lookup through nested objects (`o.a.b` = `getPath o ["a", "b"]`). -/
def getPath : JsonVal → List String → Option JsonVal
  | v, [] => some v
  | JsonVal.obj fs, k :: ks =>
      match findField k fs with
      | some v => getPath v ks
      | none => none
  | JsonVal.num _, _ :: _ => none
  | JsonVal.str _, _ :: _ => none

/-- Returns `true` on object values. -/
def isObj : JsonVal → Bool
  | JsonVal.obj _ => true
  | _ => false

/-- The field list of an object value (primitives have none). -/
def fieldsOf : JsonVal → List (String × JsonVal)
  | JsonVal.obj fs => fs
  | _ => []

/-- Returns `true` when no two fields share a key. -/
def nodupKeys : List (String × JsonVal) → Bool
  | [] => true
  | (k, _) :: rest => !hasField k rest && nodupKeys rest

mutual

/-- Well-formed JSON value: no object level carries a duplicate key (JS
objects cannot). -/
def wfJson : JsonVal → Bool
  | JsonVal.num _ => true
  | JsonVal.str _ => true
  | JsonVal.obj fs => nodupKeys fs && wfFields fs

/-- Every field value of the list is well-formed. -/
def wfFields : List (String × JsonVal) → Bool
  | [] => true
  | (_, v) :: rest => wfJson v && wfFields rest

end

/-- The default options object hard-coded in the factory
(`width: 900, height: 500, margin: \x7btop: 120, right: 50, bottom: 150,
left: 150\x7d`). -/
def defaultOptions : JsonVal :=
  JsonVal.obj
    [ ("width", JsonVal.num 900),
      ("height", JsonVal.num 500),
      ("margin", JsonVal.obj
        [ ("top", JsonVal.num 120),
          ("right", JsonVal.num 50),
          ("bottom", JsonVal.num 150),
          ("left", JsonVal.num 150) ]) ]

/-- The options line of the factory:
`Object.assign(originalOptions, defaultsDeep(originalOptions, defaults))`.
lodash `defaultsDeep` mutates `originalOptions` into the merged object and
returns it, so both `Object.assign` arguments are that same merged object. -/
def resolveOptions (originalOptions : JsonVal) : JsonVal :=
  let merged := defaultsDeep originalOptions defaultOptions
  objectAssign merged merged

/-! ## The adapter factory and its callback validation -/

/-- A JS value passed where a callback is expected; only its `typeof`
matters to the factory's validation. -/
inductive JsArg where
  | jsFunction
  | jsUndefined
  | jsNull
  | jsNumber (n : Int)
  | jsString (s : String)
deriving Repr, DecidableEq

/-- The test `typeof x === 'function'`. -/
def typeofFunction : JsArg → Bool
  | JsArg.jsFunction => true
  | _ => false

/-- The component type the factory returns, closed over the resolved
options (the two callbacks are tracked through the `CallEv` trace of the
lifecycle semantics, not stored here). -/
structure D3Container where
  options : JsonVal
deriving Repr

/-- The factory `d3Conduit(initFn, renderFn, originalOptions)` with the caller's view
of its own options object made explicit: the second component is the state
of `originalOptions` after the call (the factory mutates it on the success
path, via `defaultsDeep` and `Object.assign`).  Validation of `initFn`
comes first, then `renderFn`, and only then the options merge. -/
def d3ConduitRun (initFn renderFn : JsArg) (originalOptions : JsonVal) :
    Except String D3Container × JsonVal :=
  if typeofFunction initFn = false then
    (Except.error "must provide an initialise function", originalOptions)
  else if typeofFunction renderFn = false then
    (Except.error "must provide a render function", originalOptions)
  else
    let resolved := resolveOptions originalOptions
    (Except.ok { options := resolved }, resolved)

/-- The factory's result alone. -/
def d3Conduit (initFn renderFn : JsArg) (originalOptions : JsonVal) :
    Except String D3Container :=
  (d3ConduitRun initFn renderFn originalOptions).1

/-! ## The DOM, the window, and the responsive sizer -/

/-- The svg mount node: its element id, its attribute list, and the
browser-computed rendered size (`none` = no computed pixel size, as for a
hidden or unstyled element). -/
structure SvgNode where
  svgId : String
  attrs : List (String × String)
  styleWidth : Option Nat
  styleHeight : Option Nat
deriving Repr, DecidableEq

/-- First attribute with the given key. -/
def findAttr (k : String) : List (String × String) → Option String
  | [] => none
  | (k', v) :: rest => if k' = k then some v else findAttr k rest

/-- Write an attribute: replace the first entry with this key, else append. -/
def setAttrList (k v : String) : List (String × String) → List (String × String)
  | [] => [(k, v)]
  | (k', v') :: rest => if k' = k then (k, v) :: rest else (k', v') :: setAttrList k v rest

/-- d3 `selection.attr(k, v)` on a single node. -/
def setAttr (n : SvgNode) (k v : String) : SvgNode :=
  { n with attrs := setAttrList k v n.attrs }

/-- d3 `selection.attr(k)` inside a template literal: a missing attribute
reads as `null`, which stringifies to "null". -/
def attrOrNull (n : SvgNode) (k : String) : String :=
  (findAttr k n.attrs).getD "null"

/-- A JS number that may be `NaN`, as produced by `parseInt`. -/
inductive JSNum where
  | nan
  | num (n : Nat)
deriving Repr, DecidableEq

/-- JS `parseInt(svg.style(...), 0)`: a computed style of `n` pixels parses to
`n`; an empty/unset style parses to `NaN`. -/
def parseStyle : Option Nat → JSNum
  | none => JSNum.nan
  | some n => JSNum.num n

/-- How a `JSNum` renders inside a template literal. -/
def showJSNum : JSNum → String
  | JSNum.nan => "NaN"
  | JSNum.num n => toString n

/-- The global window: its registered handlers, keyed by the full d3
typename (`resize.<name>`); the value is the svg id the handler's closure
captured (the node it will re-fill on resize). -/
structure Window where
  handlers : List (String × String)
deriving Repr, DecidableEq

/-- d3 `select(window).on(typename, handler)`: replaces the handler
registered under the same typename, otherwise adds one. -/
def windowOn (w : Window) (key target : String) : Window :=
  { handlers := setAttrList key target w.handlers }

/-- The d3 typename the sizer registers under:
`resize.` followed by `svg.attr('id')`. -/
def sizerKey (svg : SvgNode) : String :=
  "resize." ++ attrOrNull svg "id"

/-- The method `makeResponsiveSVG(svg)`, line by line: read the rendered width and
height via `parseInt(svg.style(...), 0)`; set `viewBox` to
`0 0 <width> <height>` and `preserveAspectRatio` to `xMinYMid`; apply the
`resize` closure (width and height attributes to `100%`); register that
closure on the window under `resize.<svg id attribute>`. -/
def makeResponsiveSVG (svg : SvgNode) (w : Window) : SvgNode × Window :=
  let width := parseStyle svg.styleWidth
  let height := parseStyle svg.styleHeight
  let svg1 :=
    setAttr (setAttr svg "viewBox" ("0 0 " ++ showJSNum width ++ " " ++ showJSNum height))
      "preserveAspectRatio" "xMinYMid"
  let svg2 := setAttr (setAttr svg1 "width" "100%") "height" "100%"
  (svg2, windowOn w (sizerKey svg2) svg.svgId)

/-- The registration keys of the handlers a viewport resize event invokes:
d3 dispatches every handler currently registered on the window. -/
def resizeInvokes (w : Window) : List String :=
  w.handlers.map Prod.fst

/-! ## The lifecycle controller -/

/-- One component instance's own state: the unique id assigned in the
constructor, `this.state.data`, the bound `this.node` reference (`none`
until the render ref callback fires), and `this.options`. -/
structure InstState where
  instId : String
  dataVal : Nat
  node : Option String
  opts : JsonVal
deriving Repr

/-- Observable lifecycle effects, in the order they happen: binding the
ref, each `initFn` / `renderFn` invocation (with the `this.node` value and
the data it received), installing the window resize handler, and removing
the mount node. -/
inductive CallEv where
  | bindNode (node : String)
  | initCall (node : Option String) (d : Nat)
  | updateCall (node : Option String) (d : Nat)
  | installSizer (key : String)
  | removeNode (node : Option String)
deriving Repr, DecidableEq

/-- The hook `shouldComponentUpdate()` returns `false` unconditionally: the adapter
refuses every host-framework re-render after the initial mount. -/
def shouldComponentUpdate : Bool := false

/-- The world outside one instance: the document's mounted svg nodes and
the global window with its handler registrations. -/
structure World where
  doc : List SvgNode
  window : Window
deriving Repr

/-- The class constructor: stores the option dimensions and the resolved
options, assigns the generated unique id, and seeds `state.data` with
`props.data`.  No node is bound yet. -/
def mkInstance (c : D3Container) (uid : String) (propsData : Nat) : InstState :=
  { instId := uid, dataVal := propsData, node := none, opts := c.options }

/-- Stringify an option value for a React element attribute. -/
def jsonAttrStr : JsonVal → String
  | JsonVal.num n => toString n
  | JsonVal.str s => s
  | JsonVal.obj _ => "[object Object]"

/-- The `className: this.props.className || null` prop: the default prop
is "d3Conduit"; a JS-falsy class name yields no attribute. -/
def classAttr (cn : Option String) : List (String × String) :=
  let cnVal := cn.getD "d3Conduit"
  if cnVal = "" then [] else [("class", cnVal)]

/-- An attribute that is present exactly when its option value is. -/
def optAttr (k : String) : Option JsonVal → List (String × String)
  | some v => [(k, jsonAttrStr v)]
  | none => []

/-- The svg element `render()` produces: `className` (the prop, default
"d3Conduit" from `defaultProps`, omitted when JS-falsy), `width` and
`height` from `this.width` / `this.height` (the resolved option values),
and `id` set to the instance's unique id.  The rendered pixel size comes
from the environment. -/
def mkSvg (inst : InstState) (cn : Option String) (sw sh : Option Nat) : SvgNode :=
  { svgId := inst.instId,
    attrs := classAttr cn
      ++ optAttr "width" (findField "width" (fieldsOf inst.opts))
      ++ optAttr "height" (findField "height" (fieldsOf inst.opts))
      ++ [("id", inst.instId)],
    styleWidth := sw,
    styleHeight := sh }

/-- The full mount transition, in source order: React runs `render()`
(creating the svg and firing the ref callback, which binds `this.node`),
then `componentDidMount()` runs `initFn(this.node, this.state.data,
options)`, then `renderFn` with the same arguments, then
`select(this.node).call(this.makeResponsiveSVG)`. -/
def mountInst (c : D3Container) (uid : String) (propsData : Nat)
    (cn : Option String) (sw sh : Option Nat) (w : World) :
    InstState × World × List CallEv :=
  let inst0 := mkInstance c uid propsData
  let svg := mkSvg inst0 cn sw sh
  let inst1 := { inst0 with node := some svg.svgId }
  let res := makeResponsiveSVG svg w.window
  (inst1,
   { doc := res.1 :: w.doc, window := res.2 },
   [CallEv.bindNode svg.svgId,
    CallEv.initCall inst1.node inst1.dataVal,
    CallEv.updateCall inst1.node inst1.dataVal,
    CallEv.installSizer (sizerKey res.1)])

/-- The hook `componentWillReceiveProps(\x7b data \x7d)`: `setState` replaces
`state.data`, and its completion callback invokes
`renderFn(this.node, this.state.data, options)` with the new data.
`shouldComponentUpdate` returns `false`, so no re-render and no ref
rebinding happens; `initFn` is not invoked. -/
def receivePropsStep (inst : InstState) (d : Nat) : InstState × List CallEv :=
  ({ inst with dataVal := d }, [CallEv.updateCall inst.node d])

/-- Drop the node with the given element id from the document. -/
def removeFromDoc (nid : String) (doc : List SvgNode) : List SvgNode :=
  doc.filter (fun n => n.svgId ≠ nid)

/-- The hook `componentWillUnmount()`: `select(this.node).remove()` detaches the
mount node (with its children and their listeners) from the document.
Nothing in this method touches the window's handler list. -/
def unmountStep (inst : InstState) (w : World) : World × List CallEv :=
  match inst.node with
  | none => (w, [CallEv.removeNode none])
  | some nid => ({ w with doc := removeFromDoc nid w.doc }, [CallEv.removeNode (some nid)])

/-- A notification the host framework delivers to an already-mounted
instance: new props (data delivery) or detachment. -/
inductive HostEv where
  | receiveProps (d : Nat)
  | unmount
deriving Repr, DecidableEq

/-- An instance together with the world and the accumulated effect trace. -/
structure Sys where
  inst : InstState
  world : World
  trace : List CallEv

/-- Construct and mount one instance into the given world. -/
def initSys (c : D3Container) (uid : String) (d0 : Nat) (cn : Option String)
    (sw sh : Option Nat) (w : World) : Sys :=
  let (i, w', evs) := mountInst c uid d0 cn sw sh w
  { inst := i, world := w', trace := evs }

/-- Deliver one host notification to a mounted instance. -/
def stepSys (s : Sys) : HostEv → Sys
  | HostEv.receiveProps d =>
      let (i, evs) := receivePropsStep s.inst d
      { s with inst := i, trace := s.trace ++ evs }
  | HostEv.unmount =>
      let (w, evs) := unmountStep s.inst s.world
      { s with world := w, trace := s.trace ++ evs }

/-- Deliver a sequence of host notifications. -/
def runSys (s : Sys) : List HostEv → Sys
  | [] => s
  | e :: es => runSys (stepSys s e) es

/-- The `(node, data)` arguments of the `initFn` invocations in a trace. -/
def initCalls : List CallEv → List (Option String × Nat)
  | [] => []
  | CallEv.initCall n d :: rest => (n, d) :: initCalls rest
  | _ :: rest => initCalls rest

/-- The `(node, data)` arguments of the `renderFn` invocations in a trace. -/
def updateCalls : List CallEv → List (Option String × Nat)
  | [] => []
  | CallEv.updateCall n d :: rest => (n, d) :: updateCalls rest
  | _ :: rest => updateCalls rest

/-! ## Lemmas about lookup and the deep merge -/

theorem findAttr_setAttrList (k k' v : String) (l : List (String × String)) :
    findAttr k (setAttrList k' v l) = if k' = k then some v else findAttr k l := by
  induction l with
  | nil => by_cases h : k' = k <;> simp [setAttrList, findAttr, h]
  | cons p rest ih =>
    obtain ⟨k0, v0⟩ := p
    by_cases h0 : k0 = k'
    · subst h0
      by_cases h : k0 = k <;> simp [setAttrList, findAttr, h]
    · by_cases h : k0 = k
      · subst h
        have hne : ¬ k' = k0 := fun hh => h0 hh.symm
        simp [setAttrList, findAttr, h0, hne]
      · simp [setAttrList, findAttr, h0, h, ih]

theorem findField_append_left {k : String} {l1 l2 : List (String × JsonVal)} {x : JsonVal}
    (h : findField k l1 = some x) : findField k (l1 ++ l2) = some x := by
  induction l1 with
  | nil => simp [findField] at h
  | cons p rest ih =>
    obtain ⟨k0, v⟩ := p
    by_cases hk : k0 = k
    · simp only [findField, if_pos hk] at h
      simp [findField, hk, h]
    · simp only [findField, if_neg hk] at h
      simp [findField, hk, ih h]

theorem findField_mergeFields {k : String} {t : List (String × JsonVal)}
    (s : List (String × JsonVal)) {w : JsonVal} (h : findField k t = some w) :
    findField k (mergeFields t s) =
      some (match findField k s with
            | some sv => defaultsDeep w sv
            | none => w) := by
  induction t with
  | nil => simp [findField] at h
  | cons p rest ih =>
    obtain ⟨k0, v⟩ := p
    by_cases hk : k0 = k
    · subst hk
      have h' : v = w := by simpa [findField] using h
      subst h'
      cases hs : findField k0 s with
      | some sv => simp [mergeFields, hs, findField]
      | none => simp [mergeFields, hs, findField]
    · simp only [findField, if_neg hk] at h
      cases hs : findField k0 s with
      | some sv => simpa [mergeFields, hs, findField, hk] using ih h
      | none => simpa [mergeFields, hs, findField, hk] using ih h

/-- A field the caller's object holds at a leaf keeps its value through
`defaultsDeep`: the merge only fills fields the target lacks. -/
theorem getPath_defaultsDeep
    (p : List String) (t s v : JsonVal)
    (h : getPath t p = some v) (hv : isObj v = false) :
    getPath (defaultsDeep t s) p = some v := by
  induction p generalizing t s v with
  | nil =>
    simp only [getPath, Option.some.injEq] at h
    subst h
    cases t with
    | num n => cases s <;> simp [defaultsDeep, getPath]
    | str sv => cases s <;> simp [defaultsDeep, getPath]
    | obj fs => simp [isObj] at hv
  | cons k ks ih =>
    cases t with
    | num n => simp [getPath] at h
    | str s0 => simp [getPath] at h
    | obj fs =>
      cases hfs : findField k fs with
      | none => simp [getPath, hfs] at h
      | some w =>
        simp only [getPath, hfs] at h
        cases s with
        | num n => simpa [defaultsDeep, getPath, hfs] using h
        | str s0 => simpa [defaultsDeep, getPath, hfs] using h
        | obj sf =>
          have hmf := @findField_mergeFields k fs sf w hfs
          have happ := @findField_append_left k (mergeFields fs sf) (extraFields fs sf) _ hmf
          cases hsf : findField k sf with
          | some sv =>
            rw [hsf] at happ
            simp only [defaultsDeep, getPath, happ]
            exact ih _ sv v h hv
          | none =>
            rw [hsf] at happ
            simp only [defaultsDeep, getPath, happ]
            exact h

/-! ## Well-formedness lemmas: the merge respects JS object shape -/

theorem hasField_iff_mem {k : String} {l : List (String × JsonVal)} :
    hasField k l = true ↔ k ∈ l.map Prod.fst := by
  induction l with
  | nil => simp [hasField, findField]
  | cons p rest ih =>
    obtain ⟨k0, v⟩ := p
    by_cases hk : k0 = k
    · subst hk
      simp [hasField, findField]
    · have hne : ¬ k = k0 := fun hh => hk hh.symm
      simp only [hasField] at ih
      simp [hasField, findField, hk, hne, ih]

theorem nodupKeys_iff {l : List (String × JsonVal)} :
    nodupKeys l = true ↔ (l.map Prod.fst).Nodup := by
  induction l with
  | nil => simp [nodupKeys]
  | cons p rest ih =>
    obtain ⟨k0, v⟩ := p
    rw [List.map_cons, List.nodup_cons, ← ih]
    simp only [nodupKeys, Bool.and_eq_true, Bool.not_eq_true']
    constructor
    · rintro ⟨h1, h2⟩
      refine ⟨fun hm => ?_, h2⟩
      have hmem := hasField_iff_mem.mpr hm
      rw [h1] at hmem
      exact Bool.noConfusion hmem
    · rintro ⟨h1, h2⟩
      refine ⟨?_, h2⟩
      cases hh : hasField k0 rest
      · rfl
      · exact absurd (hasField_iff_mem.mp hh) h1

theorem findField_of_mem_nodup {l : List (String × JsonVal)} {k : String} {v : JsonVal}
    (hn : nodupKeys l = true) (hm : (k, v) ∈ l) : findField k l = some v := by
  induction l with
  | nil => simp at hm
  | cons p rest ih =>
    obtain ⟨k0, v0⟩ := p
    simp only [nodupKeys, Bool.and_eq_true, Bool.not_eq_true'] at hn
    rcases List.mem_cons.mp hm with h | h
    · cases h
      simp [findField]
    · by_cases hk : k0 = k
      · subst hk
        exfalso
        have hmem : hasField k0 rest = true :=
          hasField_iff_mem.mpr (List.mem_map.mpr ⟨(k0, v), h, rfl⟩)
        rw [hn.1] at hmem
        exact Bool.noConfusion hmem
      · simp [findField, hk, ih hn.2 h]

theorem setField_self {k : String} {v : JsonVal} {l : List (String × JsonVal)}
    (h : findField k l = some v) : setField k v l = l := by
  induction l with
  | nil => simp [findField] at h
  | cons p rest ih =>
    obtain ⟨k0, v0⟩ := p
    by_cases hk : k0 = k
    · subst hk
      have h' : v0 = v := by simpa [findField] using h
      subst h'
      simp [setField]
    · simp only [findField, if_neg hk] at h
      simp [setField, hk, ih h]

theorem assignFields_id {t s : List (String × JsonVal)}
    (h : ∀ p ∈ s, findField p.1 t = some p.2) : assignFields t s = t := by
  induction s with
  | nil => simp [assignFields]
  | cons p rest ih =>
    obtain ⟨k, v⟩ := p
    have h2 : setField k v t = t := setField_self (h (k, v) (List.mem_cons_self _ _))
    simp only [assignFields, h2]
    exact ih (fun q hq => h q (List.mem_cons_of_mem _ hq))

/-- JS `Object.assign(o, o)` on a JS object (no duplicate keys) is `o`. -/
theorem objectAssign_self {v : JsonVal} (h : wfJson v = true) : objectAssign v v = v := by
  cases v with
  | num n => simp [objectAssign]
  | str s => simp [objectAssign]
  | obj fs =>
    simp only [wfJson, Bool.and_eq_true] at h
    simp only [objectAssign, JsonVal.obj.injEq]
    exact assignFields_id (fun p hp => findField_of_mem_nodup h.1 (by cases p; exact hp))

theorem wf_findField {l : List (String × JsonVal)} {k : String} {v : JsonVal}
    (hw : wfFields l = true) (h : findField k l = some v) : wfJson v = true := by
  induction l with
  | nil => simp [findField] at h
  | cons p rest ih =>
    obtain ⟨k0, v0⟩ := p
    simp only [wfFields, Bool.and_eq_true] at hw
    by_cases hk : k0 = k
    · subst hk
      have h' : v0 = v := by simpa [findField] using h
      subst h'
      exact hw.1
    · simp only [findField, if_neg hk] at h
      exact ih hw.2 h

theorem wfFields_append {a b : List (String × JsonVal)} :
    wfFields (a ++ b) = (wfFields a && wfFields b) := by
  induction a with
  | nil => simp [wfFields]
  | cons p rest ih =>
    obtain ⟨k, v⟩ := p
    simp [wfFields, ih, Bool.and_assoc]

theorem wfFields_filter {l : List (String × JsonVal)} (q : String × JsonVal → Bool)
    (h : wfFields l = true) : wfFields (l.filter q) = true := by
  induction l with
  | nil => simp [wfFields]
  | cons p rest ih =>
    obtain ⟨k, v⟩ := p
    simp only [wfFields, Bool.and_eq_true] at h
    by_cases hq : q (k, v)
    · simp [List.filter_cons, hq, wfFields, h.1, ih h.2]
    · simp [List.filter_cons, hq, ih h.2]

theorem keys_mergeFields (t s : List (String × JsonVal)) :
    (mergeFields t s).map Prod.fst = t.map Prod.fst := by
  induction t with
  | nil => simp [mergeFields]
  | cons p rest ih =>
    obtain ⟨k, v⟩ := p
    cases hs : findField k s with
    | some sv => simp [mergeFields, hs, ih]
    | none => simp [mergeFields, hs, ih]

theorem nodupKeys_merged {t s : List (String × JsonVal)}
    (ht : nodupKeys t = true) (hs : nodupKeys s = true) :
    nodupKeys (mergeFields t s ++ extraFields t s) = true := by
  rw [nodupKeys_iff, List.map_append, keys_mergeFields]
  apply List.Nodup.append
  · exact nodupKeys_iff.mp ht
  · exact List.Sublist.nodup ((List.filter_sublist s).map Prod.fst) (nodupKeys_iff.mp hs)
  · intro k hk1 hk2
    rcases List.mem_map.mp hk2 with ⟨p, hp, rfl⟩
    have hf := List.of_mem_filter hp
    rw [Bool.not_eq_true'] at hf
    have : hasField p.1 t = true := hasField_iff_mem.mpr hk1
    rw [hf] at this
    exact Bool.noConfusion this

mutual

/-- The merge `defaultsDeep` sends well-formed JS objects to well-formed JS objects. -/
theorem wf_defaultsDeep (t s : JsonVal) (ht : wfJson t = true) (hs : wfJson s = true) :
    wfJson (defaultsDeep t s) = true := by
  cases t with
  | num n => cases s <;> simpa [defaultsDeep] using ht
  | str s0 => cases s <;> simpa [defaultsDeep] using ht
  | obj tf =>
    cases s with
    | num n => simpa [defaultsDeep] using ht
    | str s0 => simpa [defaultsDeep] using ht
    | obj sf =>
      simp only [wfJson, Bool.and_eq_true] at ht hs
      simp only [defaultsDeep, wfJson, Bool.and_eq_true]
      refine ⟨nodupKeys_merged ht.1 hs.1, ?_⟩
      rw [wfFields_append, Bool.and_eq_true]
      exact ⟨wf_mergeFields tf sf ht.2 hs.2, wfFields_filter _ hs.2⟩

/-- Field-list part of `wf_defaultsDeep`. -/
theorem wf_mergeFields (t s : List (String × JsonVal))
    (ht : wfFields t = true) (hs : wfFields s = true) :
    wfFields (mergeFields t s) = true := by
  cases t with
  | nil => simp [mergeFields, wfFields]
  | cons p rest =>
    obtain ⟨k, v⟩ := p
    simp only [wfFields, Bool.and_eq_true] at ht
    cases hfk : findField k s with
    | some sv =>
      simp only [mergeFields, hfk, wfFields, Bool.and_eq_true]
      exact ⟨wf_defaultsDeep v sv ht.1 (wf_findField hs hfk), wf_mergeFields rest s ht.2 hs⟩
    | none =>
      simp only [mergeFields, hfk, wfFields, Bool.and_eq_true]
      exact ⟨ht.1, wf_mergeFields rest s ht.2 hs⟩

end

/-- With a well-formed caller object, `Object.assign` of the merged object
onto itself is the identity, so resolution is exactly the deep default
fill. -/
theorem resolveOptions_eq_defaultsDeep {o : JsonVal} (h : wfJson o = true) :
    resolveOptions o = defaultsDeep o defaultOptions := by
  have hd : wfJson defaultOptions = true := by decide
  exact objectAssign_self (wf_defaultsDeep o defaultOptions h hd)

/-- A leaf field the caller supplied keeps its value through the whole
options-resolution line. -/
theorem getPath_resolveOptions {o : JsonVal} {p : List String} {v : JsonVal}
    (hw : wfJson o = true) (h : getPath o p = some v) (hv : isObj v = false) :
    getPath (resolveOptions o) p = some v := by
  rw [resolveOptions_eq_defaultsDeep hw]
  exact getPath_defaultsDeep p o defaultOptions v h hv

/-! ## Lemmas about the rendered node and the lifecycle runs -/

theorem findAttr_append (k : String) (l1 l2 : List (String × String)) :
    findAttr k (l1 ++ l2) = (findAttr k l1).or (findAttr k l2) := by
  induction l1 with
  | nil => simp [findAttr]
  | cons p rest ih =>
    obtain ⟨k0, v0⟩ := p
    by_cases hk : k0 = k <;> simp [findAttr, hk, ih]

theorem findAttr_classAttr_ne (k : String) (cn : Option String) (h : k ≠ "class") :
    findAttr k (classAttr cn) = none := by
  unfold classAttr
  by_cases hc : cn.getD "d3Conduit" = ""
  · simp [hc, findAttr]
  · have : ¬ ("class" = k) := fun hh => h hh.symm
    simp [hc, findAttr, this]

theorem findAttr_optAttr_ne (k k' : String) (o : Option JsonVal) (h : k' ≠ k) :
    findAttr k (optAttr k' o) = none := by
  cases o with
  | none => simp [optAttr, findAttr]
  | some v => simp [optAttr, findAttr, h]

/-- The rendered svg carries the instance's unique id in its `id`
attribute. -/
theorem findAttr_mkSvg_id (inst : InstState) (cn : Option String) (sw sh : Option Nat) :
    findAttr "id" (mkSvg inst cn sw sh).attrs = some inst.instId := by
  have hc : findAttr "id" (classAttr cn) = none :=
    findAttr_classAttr_ne _ _ (by decide)
  have hw : findAttr "id" (optAttr "width" (findField "width" (fieldsOf inst.opts))) = none :=
    findAttr_optAttr_ne _ _ _ (by decide)
  have hh : findAttr "id" (optAttr "height" (findField "height" (fieldsOf inst.opts))) = none :=
    findAttr_optAttr_ne _ _ _ (by decide)
  simp [mkSvg, findAttr_append, hc, hw, hh, findAttr, Option.or]

/-- The sizer's attribute writes do not touch the `id` attribute, so the
registration key it computes is `resize.` + the svg's id attribute. -/
theorem sizerKey_makeResponsiveSVG (svg : SvgNode) (w : Window) :
    sizerKey (makeResponsiveSVG svg w).1 = "resize." ++ attrOrNull svg "id" := by
  simp [makeResponsiveSVG, sizerKey, attrOrNull, setAttr, findAttr_setAttrList]

theorem initCalls_append (a b : List CallEv) :
    initCalls (a ++ b) = initCalls a ++ initCalls b := by
  induction a with
  | nil => simp [initCalls]
  | cons e rest ih => cases e <;> simp [initCalls, ih]

theorem updateCalls_append (a b : List CallEv) :
    updateCalls (a ++ b) = updateCalls a ++ updateCalls b := by
  induction a with
  | nil => simp [updateCalls]
  | cons e rest ih => cases e <;> simp [updateCalls, ih]

/-- Pure data delivery: the node binding survives and each delivery
appends exactly one `renderFn` call carrying the new data. -/
theorem runSys_receiveProps (ds : List Nat) (s : Sys) :
    (runSys s (ds.map HostEv.receiveProps)).inst.node = s.inst.node ∧
    (runSys s (ds.map HostEv.receiveProps)).trace =
      s.trace ++ ds.map (fun d => CallEv.updateCall s.inst.node d) := by
  induction ds generalizing s with
  | nil => simp [runSys]
  | cons d rest ih =>
    simp only [List.map_cons, runSys, stepSys, receivePropsStep]
    rcases ih { inst := { s.inst with dataVal := d }, world := s.world,
                trace := s.trace ++ [CallEv.updateCall s.inst.node d] } with ⟨h1, h2⟩
    refine ⟨h1, ?_⟩
    rw [h2]
    simp

/-- No post-mount host notification ever produces an `initFn` call. -/
theorem initCalls_runSys (s : Sys) (es : List HostEv) :
    initCalls (runSys s es).trace = initCalls s.trace := by
  induction es generalizing s with
  | nil => simp [runSys]
  | cons e rest ih =>
    cases e with
    | receiveProps d =>
      rw [runSys, ih]
      simp [stepSys, receivePropsStep, initCalls_append, initCalls]
    | unmount =>
      rw [runSys, ih]
      cases hn : s.inst.node <;>
        simp [stepSys, unmountStep, hn, initCalls_append, initCalls]

/-- No post-mount host notification ever rebinds the ref. -/
theorem bindCount_runSys (s : Sys) (es : List HostEv) :
    ((runSys s es).trace.filter (fun e =>
        match e with
        | CallEv.bindNode _ => true
        | _ => false)) =
      (s.trace.filter (fun e =>
        match e with
        | CallEv.bindNode _ => true
        | _ => false)) := by
  induction es generalizing s with
  | nil => simp [runSys]
  | cons e rest ih =>
    cases e with
    | receiveProps d =>
      rw [runSys, ih]
      simp [stepSys, receivePropsStep]
    | unmount =>
      rw [runSys, ih]
      cases hn : s.inst.node <;> simp [stepSys, unmountStep, hn]

/-- No lifecycle step after construction ever writes `this.options`. -/
theorem opts_runSys (s : Sys) (es : List HostEv) :
    (runSys s es).inst.opts = s.inst.opts := by
  induction es generalizing s with
  | nil => simp [runSys]
  | cons e rest ih =>
    cases e with
    | receiveProps d =>
      rw [runSys, ih]
      simp [stepSys, receivePropsStep]
    | unmount =>
      rw [runSys, ih]
      cases hn : s.inst.node <;> simp [stepSys, unmountStep, hn]

/-- What mounting does, split into its parts: the instance after mount,
the new world, and the emitted effect trace in source order. -/
theorem mountInst_spec (c : D3Container) (uid : String) (d0 : Nat)
    (cn : Option String) (sw sh : Option Nat) (w : World) :
    mountInst c uid d0 cn sw sh w =
      ({ instId := uid, dataVal := d0, node := some uid, opts := c.options },
       { doc := (makeResponsiveSVG (mkSvg (mkInstance c uid d0) cn sw sh) w.window).1 :: w.doc,
         window := (makeResponsiveSVG (mkSvg (mkInstance c uid d0) cn sw sh) w.window).2 },
       [CallEv.bindNode uid,
        CallEv.initCall (some uid) d0,
        CallEv.updateCall (some uid) d0,
        CallEv.installSizer ("resize." ++ uid)]) := by
  have hkey : sizerKey (makeResponsiveSVG (mkSvg (mkInstance c uid d0) cn sw sh) w.window).1 =
      "resize." ++ uid := by
    rw [sizerKey_makeResponsiveSVG]
    unfold attrOrNull
    rw [findAttr_mkSvg_id]
    rfl
  simp only [mountInst]
  rw [hkey]
  rfl

/-- The window `makeResponsiveSVG` returns is the input window with the
`resize.<id attribute>` registration added, targeting the sized svg. -/
theorem makeResponsiveSVG_window (svg : SvgNode) (w : Window) :
    (makeResponsiveSVG svg w).2 =
      windowOn w ("resize." ++ attrOrNull svg "id") svg.svgId := by
  have h := sizerKey_makeResponsiveSVG svg w
  calc (makeResponsiveSVG svg w).2
      = windowOn w (sizerKey (makeResponsiveSVG svg w).1) svg.svgId := rfl
    _ = _ := by rw [h]

/-- The sizer registration the mount performs. -/
theorem mountInst_window (c : D3Container) (uid : String) (d0 : Nat)
    (cn : Option String) (sw sh : Option Nat) (w : World) :
    (mountInst c uid d0 cn sw sh w).2.1.window =
      windowOn w.window ("resize." ++ uid) uid := by
  rw [mountInst_spec]
  show (makeResponsiveSVG (mkSvg (mkInstance c uid d0) cn sw sh) w.window).2 = _
  rw [makeResponsiveSVG_window]
  have hid : attrOrNull (mkSvg (mkInstance c uid d0) cn sw sh) "id" = uid := by
    unfold attrOrNull
    rw [findAttr_mkSvg_id]
    rfl
  rw [hid]
  rfl

theorem initCalls_map_update (n : Option String) (ds : List Nat) :
    initCalls (ds.map (fun d => CallEv.updateCall n d)) = [] := by
  induction ds with
  | nil => rfl
  | cons d rest ih => simp [initCalls, ih]

theorem updateCalls_map_update (n : Option String) (ds : List Nat) :
    updateCalls (ds.map (fun d => CallEv.updateCall n d)) = ds.map (fun d => (n, d)) := by
  induction ds with
  | nil => rfl
  | cons d rest ih => simp [updateCalls, ih]

/-- The map `s ↦ "resize." ++ s` is injective: distinct ids give distinct keys. -/
theorem resize_key_inj {a b : String} (h : a ≠ b) :
    ("resize." ++ a : String) ≠ "resize." ++ b := by
  intro hk
  apply h
  have hd := congrArg String.data hk
  simp only [String.data_append] at hd
  exact String.ext (List.append_cancel_left hd)

/-! ## Shared concrete values -/

/-- The spec's example caller input:
`\x7bwidth: 400, margin: \x7btop: 10\x7d\x7d`. -/
def exampleCaller : JsonVal :=
  JsonVal.obj
    [ ("width", JsonVal.num 400),
      ("margin", JsonVal.obj [("top", JsonVal.num 10)]) ]

/-- An empty document and a window with no handlers. -/
def emptyWorld : World :=
  { doc := [], window := { handlers := [] } }

/-- The component type a successful factory call with an empty caller
options object produces. -/
def sampleContainer : D3Container :=
  { options := resolveOptions (JsonVal.obj []) }

/-! ## The claims -/

/-- C1 (code bug, evaluated at the failing input): mount instance "a"
(rendered at 900 by 500 px) and unmount it.  `componentWillUnmount` runs
`select(this.node).remove()`, which removes the mount node from the
document — but the instance's resize handler was registered on `window`
(key `resize.a`), where the node's removal cannot reach it, so the
handler stays registered and a later viewport resize event still invokes
it.  The teardown is partial (node gone, resize binding retained),
contradicting the claim, the spec's ResizeBinding invariant and the
method's own comment that `.remove()` handles clean-up of listeners. -/
theorem c1_unmount_retains_resize_binding :
    (runSys (initSys sampleContainer "a" 0 none (some 900) (some 500) emptyWorld)
        [HostEv.unmount]).world.doc = [] ∧
    resizeInvokes
      (runSys (initSys sampleContainer "a" 0 none (some 900) (some 500) emptyWorld)
        [HostEv.unmount]).world.window = ["resize.a"] :=
  ⟨rfl, rfl⟩

/-- C2: with two invocable callbacks the factory returns the component
type closed over the resolved options; with either callback not
invocable it throws (the `Except.error` path) before any component
type — let alone instance — exists. -/
theorem c2_factory_validation :
    (∀ f g : JsArg, ∀ o : JsonVal, typeofFunction f = true → typeofFunction g = true →
      d3Conduit f g o = Except.ok { options := resolveOptions o }) ∧
    (∀ f g : JsArg, ∀ o : JsonVal, typeofFunction f = false ∨ typeofFunction g = false →
      ∃ e, d3Conduit f g o = Except.error e) := by
  constructor
  · intro f g o hf hg
    simp [d3Conduit, d3ConduitRun, hf, hg]
  · intro f g o h
    cases hf : typeofFunction f with
    | false =>
      exact ⟨"must provide an initialise function", by simp [d3Conduit, d3ConduitRun, hf]⟩
    | true =>
      cases hg : typeofFunction g with
      | false =>
        exact ⟨"must provide a render function", by simp [d3Conduit, d3ConduitRun, hf, hg]⟩
      | true =>
        rcases h with h | h
        · rw [hf] at h; exact Bool.noConfusion h
        · rw [hg] at h; exact Bool.noConfusion h

/-- C2 witness: a concrete valid pair succeeds; a concrete pair with a
non-invocable initialise callback fails at construction. -/
theorem c2_factory_validation_witness :
    d3Conduit JsArg.jsFunction JsArg.jsFunction (JsonVal.obj []) =
      Except.ok { options := resolveOptions (JsonVal.obj []) } ∧
    ∃ e, d3Conduit JsArg.jsUndefined JsArg.jsFunction (JsonVal.obj []) = Except.error e :=
  ⟨c2_factory_validation.1 _ _ _ rfl rfl,
   c2_factory_validation.2 _ _ _ (Or.inl rfl)⟩

/-- C3: over any data sequence d0, d1, ..., dn delivered to one mounted
instance, `initFn` runs exactly once, with d0, and `renderFn` runs
exactly n+1 times, once per di in delivery order, every call against the
same bound mount-node reference; `shouldComponentUpdate` is constantly
`false`, so no host-framework re-render other than explicit data delivery
triggers a drawing callback. -/
theorem c3_one_init_update_per_datum (c : D3Container) (uid : String) (d0 : Nat)
    (ds : List Nat) (cn : Option String) (sw sh : Option Nat) (w : World) :
    initCalls (runSys (initSys c uid d0 cn sw sh w) (ds.map HostEv.receiveProps)).trace =
      [(some uid, d0)] ∧
    updateCalls (runSys (initSys c uid d0 cn sw sh w) (ds.map HostEv.receiveProps)).trace =
      (some uid, d0) :: ds.map (fun d => (some uid, d)) ∧
    shouldComponentUpdate = false := by
  obtain ⟨hnode, htrace⟩ := runSys_receiveProps ds (initSys c uid d0 cn sw sh w)
  have hin : (initSys c uid d0 cn sw sh w).inst.node = some uid := by
    simp [initSys, mountInst_spec]
  have htr : (initSys c uid d0 cn sw sh w).trace =
      [CallEv.bindNode uid, CallEv.initCall (some uid) d0,
       CallEv.updateCall (some uid) d0, CallEv.installSizer ("resize." ++ uid)] := by
    simp [initSys, mountInst_spec]
  refine ⟨?_, ?_, rfl⟩
  · rw [htrace, hin, htr, initCalls_append, initCalls_map_update]
    simp [initCalls]
  · rw [htrace, hin, htr, updateCalls_append, updateCalls_map_update]
    simp [updateCalls]

/-- C4: options resolution.  First conjunct: the spec's concrete example,
with the resolved object's fields in the mutated object's key order
(caller keys first, appended defaults last; JS objects compare by
key/value, not field order).  Middle conjuncts: the same example read
field by field.  Last conjunct: the general recursive-merge guarantee —
any leaf field the caller supplies, at any nesting depth, survives
resolution unchanged, so a caller-supplied margin.top cannot erase any
other caller-supplied margin field. -/
theorem c4_options_resolution :
    resolveOptions exampleCaller =
      JsonVal.obj
        [ ("width", JsonVal.num 400),
          ("margin", JsonVal.obj
            [ ("top", JsonVal.num 10),
              ("right", JsonVal.num 50),
              ("bottom", JsonVal.num 150),
              ("left", JsonVal.num 150) ]),
          ("height", JsonVal.num 500) ] ∧
    getPath (resolveOptions exampleCaller) ["width"] = some (JsonVal.num 400) ∧
    getPath (resolveOptions exampleCaller) ["height"] = some (JsonVal.num 500) ∧
    getPath (resolveOptions exampleCaller) ["margin", "top"] = some (JsonVal.num 10) ∧
    getPath (resolveOptions exampleCaller) ["margin", "right"] = some (JsonVal.num 50) ∧
    getPath (resolveOptions exampleCaller) ["margin", "bottom"] = some (JsonVal.num 150) ∧
    getPath (resolveOptions exampleCaller) ["margin", "left"] = some (JsonVal.num 150) ∧
    (∀ o p v, wfJson o = true → getPath o p = some v → isObj v = false →
      getPath (resolveOptions o) p = some v) :=
  ⟨rfl, rfl, rfl, rfl, rfl, rfl, rfl,
   fun _ _ _ hw h hv => getPath_resolveOptions hw h hv⟩

/-- C4 witness: the general conjunct applied to the example input at the
nested path margin.top. -/
theorem c4_options_resolution_witness :
    getPath (resolveOptions exampleCaller) ["margin", "top"] = some (JsonVal.num 10) :=
  c4_options_resolution.2.2.2.2.2.2.2 exampleCaller ["margin", "top"]
    (JsonVal.num 10) rfl rfl rfl

/-- C5 counterexample: options resolution is not side-effect-free.  With
two valid callbacks and the spec's example input, the caller's options
argument after the factory call differs from what the caller passed in:
`defaultsDeep(originalOptions, ...)` and
`Object.assign(originalOptions, ...)` both write into it (here it has
gained a `height` field, among others). -/
theorem c5_counterexample_caller_mutated :
    (d3ConduitRun JsArg.jsFunction JsArg.jsFunction exampleCaller).2 ≠ exampleCaller := by
  intro h
  have h2 := congrArg (fun x => getPath x ["height"]) h
  have hL : getPath (d3ConduitRun JsArg.jsFunction JsArg.jsFunction exampleCaller).2 ["height"] =
      some (JsonVal.num 500) := rfl
  have hR : getPath exampleCaller ["height"] = none := rfl
  simp only [hL, hR] at h2
  exact Option.noConfusion h2

/-- C5 amended: options resolution is impure toward the caller's argument:
on the success path the factory fills the defaults into the caller's
options object in place, and the resolved options ARE that mutated object
(first conjunct: the post-call caller object and the stored options both
equal `resolveOptions o`).  The resolved object is shared across all
instances of one factory call — each instance's `this.options` is the
container's options (second conjunct) — and after resolution nothing
mutates it: every lifecycle transition preserves `this.options` (third
conjunct). -/
theorem c5_resolution_mutates_and_shares (f g : JsArg) (o : JsonVal)
    (hf : typeofFunction f = true) (hg : typeofFunction g = true) :
    d3ConduitRun f g o = (Except.ok { options := resolveOptions o }, resolveOptions o) ∧
    (∀ c : D3Container, ∀ uid1 uid2 : String, ∀ d1 d2 : Nat,
      (mkInstance c uid1 d1).opts = c.options ∧
      (mkInstance c uid1 d1).opts = (mkInstance c uid2 d2).opts) ∧
    (∀ s : Sys, ∀ es : List HostEv, (runSys s es).inst.opts = s.inst.opts) := by
  refine ⟨?_, fun c uid1 uid2 d1 d2 => ⟨rfl, rfl⟩, fun s es => opts_runSys s es⟩
  simp [d3ConduitRun, hf, hg]

/-- C5 amended witness: the factory call on the example input, its result
evaluated concretely. -/
theorem c5_resolution_mutates_and_shares_witness :
    d3ConduitRun JsArg.jsFunction JsArg.jsFunction exampleCaller =
      (Except.ok { options := resolveOptions exampleCaller }, resolveOptions exampleCaller) :=
  (c5_resolution_mutates_and_shares JsArg.jsFunction JsArg.jsFunction exampleCaller rfl rfl).1

/-- C6: the mount transition performs, in exactly this order: (1) bind
the mount-node reference, (2) `initFn(node, data, options)`, (3)
`renderFn` with the same arguments, (4) install the responsive-sizer
binding (first conjunct: the emitted trace is exactly that list, so the
initialisation call strictly precedes the first update call).  The
transition cannot repeat: whatever post-mount notifications the host
delivers, the full trace holds exactly one `initFn` call — with the
mount data — and exactly one ref binding (second conjunct). -/
theorem c6_mount_order_and_once (c : D3Container) (uid : String) (d0 : Nat)
    (cn : Option String) (sw sh : Option Nat) (w : World) :
    (mountInst c uid d0 cn sw sh w).2.2 =
      [CallEv.bindNode uid,
       CallEv.initCall (some uid) d0,
       CallEv.updateCall (some uid) d0,
       CallEv.installSizer ("resize." ++ uid)] ∧
    (∀ es : List HostEv,
      initCalls (runSys (initSys c uid d0 cn sw sh w) es).trace = [(some uid, d0)] ∧
      ((runSys (initSys c uid d0 cn sw sh w) es).trace.filter (fun e =>
          match e with
          | CallEv.bindNode _ => true
          | _ => false)) = [CallEv.bindNode uid]) := by
  have htr : (initSys c uid d0 cn sw sh w).trace =
      [CallEv.bindNode uid, CallEv.initCall (some uid) d0,
       CallEv.updateCall (some uid) d0, CallEv.installSizer ("resize." ++ uid)] := by
    simp [initSys, mountInst_spec]
  constructor
  · rw [mountInst_spec]
  · intro es
    constructor
    · rw [initCalls_runSys, htr]
      simp [initCalls]
    · rw [bindCount_runSys, htr]
      simp

/-- C7: the responsive sizer at mount, with the surface rendered at
`wpx` by `hpx` pixels: it reads that size, sets `viewBox` to the
rectangle `0 0 wpx hpx`, sets `preserveAspectRatio` to `xMinYMid`
(preserve aspect ratio, align left, center vertically), sets the
displayed width and height to `100%`, and registers the re-fill handler
on the window under `resize.<uid>` — namespaced by exactly the
instance's unique id. -/
theorem c7_sizer_behavior (c : D3Container) (uid : String) (d0 : Nat)
    (cn : Option String) (wpx hpx : Nat) (w : World) :
    (mountInst c uid d0 cn (some wpx) (some hpx) w).2.1.doc =
      (makeResponsiveSVG (mkSvg (mkInstance c uid d0) cn (some wpx) (some hpx)) w.window).1
        :: w.doc ∧
    findAttr "viewBox"
      (makeResponsiveSVG (mkSvg (mkInstance c uid d0) cn (some wpx) (some hpx)) w.window).1.attrs =
        some ("0 0 " ++ toString wpx ++ " " ++ toString hpx) ∧
    findAttr "preserveAspectRatio"
      (makeResponsiveSVG (mkSvg (mkInstance c uid d0) cn (some wpx) (some hpx)) w.window).1.attrs =
        some "xMinYMid" ∧
    findAttr "width"
      (makeResponsiveSVG (mkSvg (mkInstance c uid d0) cn (some wpx) (some hpx)) w.window).1.attrs =
        some "100%" ∧
    findAttr "height"
      (makeResponsiveSVG (mkSvg (mkInstance c uid d0) cn (some wpx) (some hpx)) w.window).1.attrs =
        some "100%" ∧
    (mountInst c uid d0 cn (some wpx) (some hpx) w).2.1.window =
      windowOn w.window ("resize." ++ uid) uid := by
  refine ⟨?_, ?_, ?_, ?_, ?_, mountInst_window c uid d0 cn (some wpx) (some hpx) w⟩
  · rw [mountInst_spec]
  · simp [makeResponsiveSVG, setAttr, findAttr_setAttrList, parseStyle, showJSNum, mkSvg]
  · simp [makeResponsiveSVG, setAttr, findAttr_setAttrList]
  · simp [makeResponsiveSVG, setAttr, findAttr_setAttrList]
  · simp [makeResponsiveSVG, setAttr, findAttr_setAttrList]

/-- C8: with a zero or unset rendered size, `makeResponsiveSVG` runs the
very same steps with no special-case branch and no failure: every
attribute write happens and the handler registration happens exactly as
in the sized case (the conclusions are the general formulas), and the
viewBox rectangle simply degenerates — its width or height coordinate is
`0` or `NaN` (the `parseInt` of an unset style). -/
theorem c8_degenerate_size_tolerated (svg : SvgNode) (w : Window)
    (hdeg : svg.styleWidth = none ∨ svg.styleWidth = some 0 ∨
            svg.styleHeight = none ∨ svg.styleHeight = some 0) :
    findAttr "viewBox" (makeResponsiveSVG svg w).1.attrs =
      some ("0 0 " ++ showJSNum (parseStyle svg.styleWidth) ++ " "
        ++ showJSNum (parseStyle svg.styleHeight)) ∧
    (showJSNum (parseStyle svg.styleWidth) = "NaN" ∨
     showJSNum (parseStyle svg.styleWidth) = "0" ∨
     showJSNum (parseStyle svg.styleHeight) = "NaN" ∨
     showJSNum (parseStyle svg.styleHeight) = "0") ∧
    findAttr "preserveAspectRatio" (makeResponsiveSVG svg w).1.attrs = some "xMinYMid" ∧
    findAttr "width" (makeResponsiveSVG svg w).1.attrs = some "100%" ∧
    findAttr "height" (makeResponsiveSVG svg w).1.attrs = some "100%" ∧
    (makeResponsiveSVG svg w).2 =
      windowOn w ("resize." ++ attrOrNull svg "id") svg.svgId := by
  refine ⟨?_, ?_, ?_, ?_, ?_, makeResponsiveSVG_window svg w⟩
  · simp [makeResponsiveSVG, setAttr, findAttr_setAttrList]
  · rcases hdeg with h | h | h | h
    · exact Or.inl (by rw [h]; rfl)
    · exact Or.inr (Or.inl (by rw [h]; rfl))
    · exact Or.inr (Or.inr (Or.inl (by rw [h]; rfl)))
    · exact Or.inr (Or.inr (Or.inr (by rw [h]; rfl)))
  · simp [makeResponsiveSVG, setAttr, findAttr_setAttrList]
  · simp [makeResponsiveSVG, setAttr, findAttr_setAttrList]
  · simp [makeResponsiveSVG, setAttr, findAttr_setAttrList]

/-- An svg mounted while hidden: no computed pixel size at all. -/
def hiddenSvg : SvgNode :=
  { svgId := "a", attrs := [("id", "a")], styleWidth := none, styleHeight := none }

/-- C8 witness: the sizer applied to a node with fully unset rendered
size — the viewBox degenerates to `0 0 NaN NaN`, everything else
proceeds as usual. -/
theorem c8_degenerate_size_tolerated_witness :
    findAttr "viewBox" (makeResponsiveSVG hiddenSvg { handlers := [] }).1.attrs =
      some ("0 0 " ++ showJSNum (parseStyle hiddenSvg.styleWidth) ++ " "
        ++ showJSNum (parseStyle hiddenSvg.styleHeight)) ∧
    (showJSNum (parseStyle hiddenSvg.styleWidth) = "NaN" ∨
     showJSNum (parseStyle hiddenSvg.styleWidth) = "0" ∨
     showJSNum (parseStyle hiddenSvg.styleHeight) = "NaN" ∨
     showJSNum (parseStyle hiddenSvg.styleHeight) = "0") ∧
    findAttr "preserveAspectRatio" (makeResponsiveSVG hiddenSvg { handlers := [] }).1.attrs =
      some "xMinYMid" ∧
    findAttr "width" (makeResponsiveSVG hiddenSvg { handlers := [] }).1.attrs = some "100%" ∧
    findAttr "height" (makeResponsiveSVG hiddenSvg { handlers := [] }).1.attrs = some "100%" ∧
    (makeResponsiveSVG hiddenSvg { handlers := [] }).2 =
      windowOn { handlers := [] } ("resize." ++ attrOrNull hiddenSvg "id") hiddenSvg.svgId :=
  c8_degenerate_size_tolerated hiddenSvg { handlers := [] } (Or.inl rfl)

/-- C9: two concurrently mounted instances with distinct unique ids: each
registers its handler under its own key (`resize.<own id>`), the second
mount leaves the first's registration intact, each key's stored handler
captures that instance's own node (the looked-up target equals the
owner's id), and the two keys are distinct strings. -/
theorem c9_distinct_ids_no_collision (c1 c2 : D3Container) (a b : String) (hab : a ≠ b)
    (d1 d2 : Nat) (cn1 cn2 : Option String) (sw1 sh1 sw2 sh2 : Option Nat) (w0 : World) :
    findAttr ("resize." ++ a)
      (mountInst c2 b d2 cn2 sw2 sh2
        (mountInst c1 a d1 cn1 sw1 sh1 w0).2.1).2.1.window.handlers = some a ∧
    findAttr ("resize." ++ b)
      (mountInst c2 b d2 cn2 sw2 sh2
        (mountInst c1 a d1 cn1 sw1 sh1 w0).2.1).2.1.window.handlers = some b ∧
    ("resize." ++ a : String) ≠ "resize." ++ b := by
  have hkey := resize_key_inj hab
  rw [mountInst_window, mountInst_window]
  refine ⟨?_, ?_, hkey⟩
  · show findAttr ("resize." ++ a)
      (setAttrList ("resize." ++ b) b (windowOn w0.window ("resize." ++ a) a).handlers) = some a
    rw [findAttr_setAttrList]
    rw [if_neg (fun hh => hkey hh.symm)]
    show findAttr ("resize." ++ a) (setAttrList ("resize." ++ a) a w0.window.handlers) = some a
    rw [findAttr_setAttrList, if_pos rfl]
  · show findAttr ("resize." ++ b)
      (setAttrList ("resize." ++ b) b (windowOn w0.window ("resize." ++ a) a).handlers) = some b
    rw [findAttr_setAttrList, if_pos rfl]

/-- C9 witness: two concrete instances with ids "a" and "b". -/
theorem c9_distinct_ids_no_collision_witness :
    findAttr ("resize." ++ "a")
      ((mountInst sampleContainer "b" 1 none (some 10) (some 10)
        (mountInst sampleContainer "a" 0 none (some 900) (some 500)
          emptyWorld).2.1).2.1.window.handlers) = some "a" ∧
    findAttr ("resize." ++ "b")
      ((mountInst sampleContainer "b" 1 none (some 10) (some 10)
        (mountInst sampleContainer "a" 0 none (some 900) (some 500)
          emptyWorld).2.1).2.1.window.handlers) = some "b" ∧
    ("resize." ++ "a" : String) ≠ "resize." ++ "b" :=
  c9_distinct_ids_no_collision sampleContainer sampleContainer "a" "b" (by decide)
    0 1 none none (some 900) (some 500) (some 10) (some 10) emptyWorld

/-- C10: failing construction is atomic toward the caller's options
object: whenever the factory throws, the caller's object is exactly what
was passed in (validation precedes the merge); and since `initFn` is
validated before `renderFn`, two non-invocable callbacks raise the
missing-initialise error. -/
theorem c10_validation_before_merge (f g : JsArg) (o : JsonVal) :
    (∀ e, (d3ConduitRun f g o).1 = Except.error e → (d3ConduitRun f g o).2 = o) ∧
    (typeofFunction f = false → typeofFunction g = false →
      d3ConduitRun f g o = (Except.error "must provide an initialise function", o)) := by
  constructor
  · intro e he
    cases hf : typeofFunction f with
    | false => simp [d3ConduitRun, hf]
    | true =>
      cases hg : typeofFunction g with
      | false => simp [d3ConduitRun, hf, hg]
      | true =>
        rw [show d3ConduitRun f g o =
          (Except.ok { options := resolveOptions o }, resolveOptions o) from by
            simp [d3ConduitRun, hf, hg]] at he
        exact Except.noConfusion he
  · intro hf hg
    simp [d3ConduitRun, hf]

/-- C10 witness: both callbacks non-invocable — the initialise error is
raised and the caller's object is untouched. -/
theorem c10_validation_before_merge_witness :
    (d3ConduitRun JsArg.jsUndefined JsArg.jsNull exampleCaller).2 = exampleCaller ∧
    d3ConduitRun JsArg.jsUndefined JsArg.jsNull exampleCaller =
      (Except.error "must provide an initialise function", exampleCaller) :=
  ⟨(c10_validation_before_merge JsArg.jsUndefined JsArg.jsNull exampleCaller).1
      "must provide an initialise function" rfl,
   (c10_validation_before_merge JsArg.jsUndefined JsArg.jsNull exampleCaller).2 rfl rfl⟩

end D3C
